import Mathlib

/-!
Shallow embedding of the photo-cataloguing server (routes/api.js and the
upload route routes/upload.js, plus the frontend caller public/upload.js).

Byte buffers are modelled as `List Nat`; the multipart stream as a list of
chunks; the external transcoder (sharp) and the blob client (put) are
parameters of the upload handler, so theorems quantify over their behavior.
-/

namespace PhotoApp

/-! ### Configuration constants (routes/upload.js) -/

def MAX_FILE_SIZE : Nat := 10 * 1024 * 1024

def MAX_WIDTH : Nat := 800

def MAX_HEIGHT : Nat := 800

def JPEG_QUALITY : Nat := 85

def ALLOWED_TYPES : List String := ["image/jpeg", "image/png", "image/webp", "image/svg+xml"]

/-- JavaScript `s.includes(sub)`: some suffix of `s` starts with `sub`. -/
def jsIncludes (s sub : String) : Bool :=
  s.toList.tails.any (fun t => sub.toList.isPrefixOf t)

/-! ### Streaming size enforcement (file.on data handler) -/

/-- Outcome of draining the multipart file stream: either the accumulated
size exceeded `MAX_FILE_SIZE` after consuming `consumed` chunks (the stream
is destroyed, remaining chunks are never read), or the full buffer. -/
inductive StreamOut
  | tooLarge (consumed : Nat)
  | complete (buffer : List Nat)
deriving DecidableEq

/-- The data handler: `fileSize += chunk.length; if fileSize > MAX_FILE_SIZE
then destroy + 400 else chunks.push(chunk)`, folded over the chunk list with
the running size and accumulated buffer. -/
def collectGo : List (List Nat) → Nat → List Nat → StreamOut
  | [], _, acc => .complete acc
  | chunk :: rest, fileSize, acc =>
    if MAX_FILE_SIZE < fileSize + chunk.length then .tooLarge 1
    else
      match collectGo rest (fileSize + chunk.length) (acc ++ chunk) with
      | .tooLarge k => .tooLarge (k + 1)
      | .complete b => .complete b

def totalSize (chunks : List (List Nat)) : Nat := (chunks.map List.length).sum

/-- Index (1-based count of consumed chunks) at which the running size first
exceeds the limit, if ever. -/
def firstExceedGo : List (List Nat) → Nat → Option Nat
  | [], _ => none
  | chunk :: rest, fileSize =>
    if MAX_FILE_SIZE < fileSize + chunk.length then some 1
    else (firstExceedGo rest (fileSize + chunk.length)).map (· + 1)

def firstExceed (chunks : List (List Nat)) : Option Nat := firstExceedGo chunks 0

/-! ### Upload handler (router.post upload) -/

/-- Options of the sharp pipeline invoked by the upload route:
`resize(MAX_WIDTH, MAX_HEIGHT, fit inside, withoutEnlargement true)` then
`jpeg(quality JPEG_QUALITY)`. -/
structure SharpConfig where
  width : Nat
  height : Nat
  fit : String
  withoutEnlargement : Bool
  format : String
  quality : Nat
deriving DecidableEq

def uploadSharpConfig : SharpConfig :=
  { width := MAX_WIDTH, height := MAX_HEIGHT, fit := "inside",
    withoutEnlargement := true, format := "jpeg", quality := JPEG_QUALITY }

/-- Result of the blob store `put` call. -/
structure BlobResult where
  url : String
  pathname : String
  contentType : String
deriving DecidableEq

/-- Arguments handed to the blob store `put` call. -/
structure PutArgs where
  key : String
  bytes : List Nat
  contentType : String
deriving DecidableEq

/-- Externally observable calls made by the upload handler. -/
inductive UpEvent
  | transcode (input : List Nat) (cfg : SharpConfig)
  | blobPut (args : PutArgs)
deriving DecidableEq

structure UploadBody where
  url : String
  pathname : String
  contentType : String
  size : Nat
deriving DecidableEq

inductive UploadRespBody
  | ok (body : UploadBody)
  | badRequest (error : String)
deriving DecidableEq

structure UploadResp where
  status : Nat
  body : UploadRespBody
deriving DecidableEq

structure UploadReq where
  mimeType : String
  filename : String
  chunks : List (List Nat)

structure UploadOutcome where
  resp : UploadResp
  events : List UpEvent
deriving DecidableEq

def uploadKey (now : Nat) (filename : String) : String :=
  "cat-images/" ++ toString now ++ "-" ++ filename

/-- Bytes handed to the blob store: svg input passes through untouched,
anything else goes through the transcoder. -/
def processBuffer (transcodeFn : List Nat → List Nat) (mimeType : String)
    (buffer : List Nat) : List Nat :=
  if jsIncludes mimeType "svg" then buffer else transcodeFn buffer

/-- Content type handed to the blob store: svg input keeps its declared
type, anything else becomes jpeg. -/
def processContentType (mimeType : String) : String :=
  if jsIncludes mimeType "svg" then mimeType else "image/jpeg"

/-- The upload route body, with the transcoder (`sharp ... toBuffer`) and the
blob client (`put`) abstracted as function parameters and `Date.now()` as
`now`. Mirrors routes/upload.js: allow-list check on the declared mime type,
streaming size check, svg passthrough, transcode to jpeg otherwise, then
`put` and the json response. -/
def uploadHandler (transcodeFn : List Nat → List Nat)
    (putFn : String → List Nat → String → BlobResult)
    (now : Nat) (req : UploadReq) : UploadOutcome :=
  if (ALLOWED_TYPES.contains req.mimeType) = false then
    { resp := { status := 400, body := .badRequest "Invalid file type. Only images allowed." },
      events := [] }
  else
    match collectGo req.chunks 0 [] with
    | .tooLarge _ =>
      { resp := { status := 400, body := .badRequest "File too large. Maximum size is 10MB." },
        events := [] }
    | .complete buffer =>
      let svg := jsIncludes req.mimeType "svg"
      let processedBuffer := processBuffer transcodeFn req.mimeType buffer
      let contentType := processContentType req.mimeType
      let key := uploadKey now req.filename
      let blob := putFn key processedBuffer contentType
      { resp := { status := 200,
                  body := .ok { url := blob.url, pathname := blob.pathname,
                                contentType := blob.contentType,
                                size := processedBuffer.length } },
        events := (if svg then [] else [UpEvent.transcode buffer uploadSharpConfig])
                    ++ [UpEvent.blobPut ⟨key, processedBuffer, contentType⟩] }

/-! ### Record store and CRUD handlers (routes/api.js) -/

/-- A document-store record: store-assigned id, optional image reference,
and the remaining user-supplied scalar fields. -/
structure Photo where
  id : String
  imageUrl : Option String
  fields : List (String × String)
deriving DecidableEq

/-- prisma photo findUnique with a where id clause. -/
def findUnique (store : List Photo) (pid : String) : Option Photo :=
  store.find? (fun p => p.id == pid)

/-- Error raised by prisma photo delete when no record matches (code P2025). -/
inductive PrismaError
  | notFound (message : String)
deriving DecidableEq

def PrismaError.message : PrismaError → String
  | .notFound m => m

/-- prisma photo delete with a where id clause: returns the deleted record
and the remaining store, or throws when the id matches nothing. -/
def prismaDelete (store : List Photo) (pid : String) :
    Except PrismaError (Photo × List Photo) :=
  match findUnique store pid with
  | some p => .ok (p, store.filter (fun q => q.id != pid))
  | none => .error (.notFound "Record to delete does not exist.")

/-- JavaScript truthiness of the optional imageUrl field: a string is truthy
exactly when nonempty; a missing field is falsy. -/
def isTruthy : Option String → Bool
  | some s => s != ""
  | none => false

/-- Externally observable store mutations made by the delete route, in call
order. -/
inductive DbEvent
  | recordDelete (pid : String)
  | blobDelete (url : String)
deriving DecidableEq

def isBlobDelete : DbEvent → Bool
  | .blobDelete _ => true
  | _ => false

inductive DeleteRespBody
  | record (p : Photo)
  | err (error : String) (details : String)
deriving DecidableEq

structure DeleteResp where
  status : Nat
  body : DeleteRespBody
deriving DecidableEq

structure DeleteOutcome where
  resp : DeleteResp
  events : List DbEvent
  blobErrorLogged : Bool
deriving DecidableEq

/-- The DELETE data id route: read the record, delete it from the store,
then, if the read record has a truthy imageUrl, call `del(photo.imageUrl)`
inside a try/catch that only logs a failure. `delFails url = true` models
the blob-delete call rejecting for that url. -/
def deleteDataHandler (delFails : String → Bool) (store : List Photo)
    (pid : String) : DeleteOutcome :=
  let photo := findUnique store pid
  match prismaDelete store pid with
  | .error e =>
    { resp := { status := 500, body := .err "Failed to delete record" e.message },
      events := [], blobErrorLogged := false }
  | .ok (result, _) =>
    match photo with
    | some p =>
      if isTruthy p.imageUrl then
        let url := p.imageUrl.getD ""
        { resp := { status := 200, body := .record result },
          events := [.recordDelete pid, .blobDelete url],
          blobErrorLogged := delFails url }
      else
        { resp := { status := 200, body := .record result },
          events := [.recordDelete pid], blobErrorLogged := false }
    | none =>
      { resp := { status := 200, body := .record result },
        events := [.recordDelete pid], blobErrorLogged := false }

/-! ### PUT update with write-conflict retry (routes/api.js) -/

/-- Outcome of one prisma photo update call: success, a P2034 write
conflict, or any other error. -/
inductive UpdateOutcome
  | success (p : Photo)
  | writeConflict
  | otherError (message : String)
deriving DecidableEq

inductive PutRespBody
  | record (p : Photo)
  | err (error : String)
deriving DecidableEq

structure PutResp where
  status : Nat
  body : PutRespBody
deriving DecidableEq

/-- Result of running the PUT route: the single response sent (none would
mean the loop fell through without responding), the number of update
attempts issued, and the list of `setTimeout` sleep durations in ms. -/
structure PutOutput where
  resp : Option PutResp
  attempts : Nat
  delays : List Nat
deriving DecidableEq

/-- The retry loop body of the PUT data id route: `for attempt in 0..2`,
update; on success respond with the record; on P2034 sleep 100ms and retry
while attempt < 2, else respond 409; on any other error respond 500.
`oracle attempt` gives the store outcome of the attempt-th update call. -/
def putGo (oracle : Nat → UpdateOutcome) : Nat → Nat → PutOutput
  | _, 0 => { resp := none, attempts := 0, delays := [] }
  | attempt, remaining + 1 =>
    match oracle attempt with
    | .success p =>
      { resp := some { status := 200, body := .record p }, attempts := 1, delays := [] }
    | .writeConflict =>
      if attempt < 2 then
        let rest := putGo oracle (attempt + 1) remaining
        { resp := rest.resp, attempts := rest.attempts + 1, delays := 100 :: rest.delays }
      else
        { resp := some { status := 409, body := .err "Write conflict, please retry" },
          attempts := 1, delays := [] }
    | .otherError _ =>
      { resp := some { status := 500, body := .err "Failed to update record" },
        attempts := 1, delays := [] }

def putDataHandler (oracle : Nat → UpdateOutcome) : PutOutput := putGo oracle 0 3

/-! ### Identifier stripping (routes/api.js POST and PUT bodies) -/

/-- POST data destructuring: `const (id, ...createData) = req.body` keeps
every field whose key is not id. -/
def createData (body : List (String × String)) : List (String × String) :=
  body.filter (fun kv => kv.1 != "id")

/-- PUT data id destructuring: `const (id, _id, ...requestBody) = req.body`
keeps every field whose key is neither id nor the underscore-id alias. -/
def requestBody (body : List (String × String)) : List (String × String) :=
  body.filter (fun kv => kv.1 != "id" && kv.1 != "_id")

/-! ### Image-delete routing (routes/upload.js and public/upload.js) -/

/-- One segment of an express route pattern: a literal or a named param. -/
inductive Seg
  | lit (s : String)
  | param (name : String)
deriving DecidableEq

/-- Express path matching on already-split path segments: a param segment
consumes exactly one nonempty segment. -/
def segMatch : List Seg → List String → Bool
  | [], [] => true
  | .lit s :: ps, x :: xs => s == x && segMatch ps xs
  | .param _ :: ps, x :: xs => x != "" && segMatch ps xs
  | _, _ => false

/-- The DELETE routes the upload router registers under the api mount:
only `/image/:url`. -/
def uploadRouterDeletePaths : List (List Seg) := [[.lit "image", .param "url"]]

/-- Whether a DELETE request path under the api mount matches any registered
route; an unmatched path falls through to the express 404 handler. -/
def apiDeleteDispatch (path : List String) : Bool :=
  uploadRouterDeletePaths.any (fun r => segMatch r path)

/-- The handler of DELETE image url: decode the param and delete that blob,
answering with a deleted field. `decodeFn` stands for decodeURIComponent. -/
def deleteImageHandler (decodeFn : String → String) (urlParam : String) :
    String × List DbEvent :=
  let url := decodeFn urlParam
  (url, [.blobDelete url])

/-! ### Sharp resize semantics -/

/-- Round num/den to the nearest natural (half rounds up). -/
def natRound (num den : Nat) : Nat := (2 * num + den) / (2 * den)

/-- Modelled from the spec: the sharp library resize step used by the upload
route is not part of this repository; per the spec it resizes to fit within
the configured bounding box preserving aspect ratio, never upscaling when
withoutEnlargement is set. Output dimensions for an input of w by h pixels:
unchanged when it already fits, otherwise scaled by the smaller of the two
box ratios, the free dimension rounded to the nearest pixel. -/
def sharpResizeDims (cfg : SharpConfig) (w h : Nat) : Nat × Nat :=
  if cfg.withoutEnlargement ∧ w ≤ cfg.width ∧ h ≤ cfg.height then (w, h)
  else if cfg.width * h ≤ cfg.height * w then
    (cfg.width, natRound (h * cfg.width) w)
  else
    (natRound (w * cfg.height) h, cfg.height)

/-! ### Concrete instances used to exercise the handlers -/

/-- Modelled from the spec: the Object Store Client (at vercel blob) is not
part of this repository; per the spec, put returns a stable public URL, the
pathname key and the stored content type. Used as one concrete store client
when running the handlers on closed inputs. -/
def echoPut : String → List Nat → String → BlobResult := fun key _ ctype =>
  { url := "https://blob.example/" ++ key, pathname := key, contentType := ctype }

/-- An upload request one byte over the configured limit. -/
def bigReq : UploadReq :=
  { mimeType := "image/png", filename := "big.png",
    chunks := [List.replicate (MAX_FILE_SIZE + 1) 0] }

/-- A stored record carrying an image reference. -/
def photoA : Photo :=
  { id := "a1", imageUrl := some "https://blob.example/x.jpg",
    fields := [("title", "cat")] }

def storeA : List Photo := [photoA]

/-! ### Supporting lemmas: the streaming size check -/

theorem totalSize_nil : totalSize [] = 0 := rfl

theorem totalSize_cons (c : List Nat) (rest : List (List Nat)) :
    totalSize (c :: rest) = c.length + totalSize rest := by
  simp [totalSize]

/-- When the whole stream fits, the data handler accumulates every chunk and
the end handler sees the concatenation. -/
theorem collectGo_complete (chunks : List (List Nat)) :
    ∀ fileSize acc, fileSize + totalSize chunks ≤ MAX_FILE_SIZE →
      collectGo chunks fileSize acc = .complete (acc ++ chunks.flatten) := by
  induction chunks with
  | nil => intro sz acc _; simp [collectGo]
  | cons c rest ih =>
    intro sz acc h
    rw [totalSize_cons] at h
    have hle : ¬ MAX_FILE_SIZE < sz + c.length := by omega
    rw [collectGo, if_neg hle, ih (sz + c.length) (acc ++ c) (by omega)]
    simp

/-- If the running size never exceeds the limit, the total fits. -/
theorem firstExceedGo_none (chunks : List (List Nat)) :
    ∀ fileSize, fileSize ≤ MAX_FILE_SIZE → firstExceedGo chunks fileSize = none →
      fileSize + totalSize chunks ≤ MAX_FILE_SIZE := by
  induction chunks with
  | nil => intro sz hsz _; rw [totalSize_nil]; omega
  | cons c rest ih =>
    intro sz hsz h
    rw [totalSize_cons]
    rw [firstExceedGo] at h
    by_cases hbig : MAX_FILE_SIZE < sz + c.length
    · rw [if_pos hbig] at h; exact absurd h (by simp)
    · rw [if_neg hbig] at h
      have h' := ih (sz + c.length) (by omega) (by
        cases he : firstExceedGo rest (sz + c.length) with
        | none => rfl
        | some k => rw [he] at h; simp at h)
      omega

/-- Position and prefix-sum characterization of the abort point. -/
theorem firstExceedGo_bounds (chunks : List (List Nat)) :
    ∀ fileSize k, fileSize ≤ MAX_FILE_SIZE →
      firstExceedGo chunks fileSize = some k →
      1 ≤ k ∧ k ≤ chunks.length ∧
      MAX_FILE_SIZE < fileSize + totalSize (chunks.take k) ∧
      fileSize + totalSize (chunks.take (k - 1)) ≤ MAX_FILE_SIZE := by
  induction chunks with
  | nil => intro sz k _ h; rw [firstExceedGo] at h; exact absurd h (by simp)
  | cons c rest ih =>
    intro sz k hsz h
    rw [firstExceedGo] at h
    by_cases hbig : MAX_FILE_SIZE < sz + c.length
    · rw [if_pos hbig] at h
      have hk : k = 1 := by simpa using h.symm
      subst hk
      refine ⟨le_refl 1, by simp, ?_, ?_⟩
      · simpa [totalSize_cons, totalSize_nil] using hbig
      · simpa [totalSize_nil] using hsz
    · rw [if_neg hbig] at h
      cases he : firstExceedGo rest (sz + c.length) with
      | none => rw [he] at h; simp at h
      | some k' =>
        rw [he] at h
        have hk : k = k' + 1 := by simpa using h.symm
        subst hk
        obtain ⟨h1, h2, h3, h4⟩ := ih (sz + c.length) k' (by omega) he
        refine ⟨by omega, by simpa using h2, ?_, ?_⟩
        · rw [List.take_succ_cons, totalSize_cons]; omega
        · cases k' with
          | zero => exact absurd h1 (by omega)
          | succ k'' =>
            have hk1 : k'' + 1 + 1 - 1 = k'' + 1 := rfl
            rw [hk1, List.take_succ_cons, totalSize_cons]
            have h4' : sz + c.length + totalSize (rest.take k'') ≤ MAX_FILE_SIZE := by
              simpa using h4
            omega

/-- The abort is decided by the consumed prefix alone: whatever follows the
first `k` chunks, the data handler destroys the stream after chunk `k`. -/
theorem collectGo_abort (chunks : List (List Nat)) :
    ∀ fileSize k, firstExceedGo chunks fileSize = some k →
      ∀ rest acc, collectGo (chunks.take k ++ rest) fileSize acc = .tooLarge k := by
  induction chunks with
  | nil => intro sz k h; rw [firstExceedGo] at h; exact absurd h (by simp)
  | cons c cs ih =>
    intro sz k h rest acc
    rw [firstExceedGo] at h
    by_cases hbig : MAX_FILE_SIZE < sz + c.length
    · rw [if_pos hbig] at h
      have hk : k = 1 := by simpa using h.symm
      subst hk
      simp only [List.take_succ_cons, List.take_zero, List.cons_append, List.nil_append]
      rw [collectGo, if_pos hbig]
    · rw [if_neg hbig] at h
      cases he : firstExceedGo cs (sz + c.length) with
      | none => rw [he] at h; simp at h
      | some k' =>
        rw [he] at h
        have hk : k = k' + 1 := by simpa using h.symm
        subst hk
        simp only [List.take_succ_cons, List.cons_append]
        rw [collectGo, if_neg hbig, ih (sz + c.length) k' he rest (acc ++ c)]

/-! ### Supporting lemmas: association-list lookup through key filtering -/

theorem lookup_filterKeys (f : String → Bool) (body : List (String × String))
    (k : String) :
    (body.filter (fun kv => f kv.1)).lookup k =
      if f k then body.lookup k else none := by
  induction body with
  | nil => simp only [List.filter_nil, List.lookup_nil]; split <;> rfl
  | cons kv rest ih =>
    obtain ⟨k', v⟩ := kv
    rw [List.filter_cons]
    by_cases hf : f k'
    · rw [if_pos (by simpa using hf)]
      by_cases hk : k = k'
      · subst hk
        simp [List.lookup_cons, hf]
      · have hbeq : (k == k') = false := by simpa using hk
        simp [List.lookup_cons, hbeq, ih]
    · rw [if_neg (by simpa using hf)]
      rw [ih]
      by_cases hk : k = k'
      · subst hk
        simp [List.lookup_cons, hf]
      · have hbeq : (k == k') = false := by simpa using hk
        simp [List.lookup_cons, hbeq]

/-! ### Supporting lemmas: nearest rounding -/

theorem div_lt_add_one_mul (a b : Nat) (hb : 0 < b) : a < (a / b + 1) * b := by
  have h := Nat.div_add_mod a b
  have hm := Nat.mod_lt a hb
  nlinarith [h, hm]

theorem natRound_mul_bounds (num den : Nat) (hden : 0 < den) :
    2 * natRound num den * den ≤ 2 * num + den ∧
    2 * num ≤ 2 * natRound num den * den + den := by
  have hb : 0 < 2 * den := by omega
  have h1 : (2 * num + den) / (2 * den) * (2 * den) ≤ 2 * num + den :=
    Nat.div_mul_le_self _ _
  have h2 : 2 * num + den < ((2 * num + den) / (2 * den) + 1) * (2 * den) :=
    div_lt_add_one_mul _ _ hb
  unfold natRound
  constructor
  · nlinarith [h1]
  · nlinarith [h2]

theorem natRound_le_of_le (num den bound : Nat) (hden : 0 < den)
    (h : num ≤ bound * den) : natRound num den ≤ bound := by
  have hb : 0 < 2 * den := by omega
  have hlt : (2 * num + den) / (2 * den) < bound + 1 := by
    rw [Nat.div_lt_iff_lt_mul hb]
    nlinarith
  unfold natRound
  omega

theorem createData_lookup (body : List (String × String)) (k : String) :
    (createData body).lookup k = if k != "id" then body.lookup k else none :=
  lookup_filterKeys (fun s => s != "id") body k

theorem requestBody_lookup (body : List (String × String)) (k : String) :
    (requestBody body).lookup k =
      if k != "id" && k != "_id" then body.lookup k else none :=
  lookup_filterKeys (fun s => s != "id" && s != "_id") body k

/-! ### Claim theorems -/

/-- C1: on DELETE of an existing record, the record deletion comes first and
succeeds with the deleted record as payload; exactly one blob-delete call is
issued iff the record's imageUrl is non-empty, and a blob-delete failure
(any `delFails`) never changes the response. -/
theorem deleteData_cascade_on_found (delFails : String → Bool)
    (store : List Photo) (pid : String) (p : Photo)
    (hfound : findUnique store pid = some p) :
    (deleteDataHandler delFails store pid).resp =
      { status := 200, body := .record p } ∧
    (deleteDataHandler delFails store pid).events =
      [DbEvent.recordDelete pid] ++
        (if isTruthy p.imageUrl then [DbEvent.blobDelete (p.imageUrl.getD "")]
         else []) ∧
    ((deleteDataHandler delFails store pid).events.countP isBlobDelete =
      if isTruthy p.imageUrl then 1 else 0) ∧
    (deleteDataHandler delFails store pid).resp =
      (deleteDataHandler (fun _ => false) store pid).resp := by
  unfold deleteDataHandler prismaDelete
  rw [hfound]
  by_cases ht : isTruthy p.imageUrl <;> simp [ht, isBlobDelete]

theorem deleteData_cascade_on_found_witness :
    findUnique storeA "a1" = some photoA ∧
    (deleteDataHandler (fun _ => true) storeA "a1").resp =
      { status := 200, body := .record photoA } ∧
    (deleteDataHandler (fun _ => true) storeA "a1").events =
      [DbEvent.recordDelete "a1",
       DbEvent.blobDelete "https://blob.example/x.jpg"] := by
  have hfound : findUnique storeA "a1" = some photoA := by decide
  have h := deleteData_cascade_on_found (fun _ => true) storeA "a1" photoA hfound
  exact ⟨hfound, h.1, by rw [h.2.1]; decide⟩

/-- C10: on DELETE of a missing record the store delete throws, the generic
catch answers 500 with the failed-delete error envelope, and no blob-delete
call is issued. -/
theorem deleteData_missing_500 (delFails : String → Bool) (store : List Photo)
    (pid : String) (hmiss : findUnique store pid = none) :
    deleteDataHandler delFails store pid =
      { resp := { status := 500,
                  body := .err "Failed to delete record"
                    "Record to delete does not exist." },
        events := [], blobErrorLogged := false } ∧
    (deleteDataHandler delFails store pid).events.countP isBlobDelete = 0 := by
  have he : deleteDataHandler delFails store pid =
      { resp := { status := 500,
                  body := .err "Failed to delete record"
                    "Record to delete does not exist." },
        events := [], blobErrorLogged := false } := by
    unfold deleteDataHandler prismaDelete
    rw [hmiss]
    rfl
  exact ⟨he, by rw [he]; rfl⟩

theorem deleteData_missing_500_witness :
    findUnique storeA "nope" = none ∧
    deleteDataHandler (fun _ => true) storeA "nope" =
      { resp := { status := 500,
                  body := .err "Failed to delete record"
                    "Record to delete does not exist." },
        events := [], blobErrorLogged := false } := by
  have hmiss : findUnique storeA "nope" = none := by decide
  exact ⟨hmiss, (deleteData_missing_500 (fun _ => true) storeA "nope" hmiss).1⟩

/-- Full case analysis of the PUT retry loop on the first three store
outcomes. -/
theorem putDataHandler_cases (oracle : Nat → UpdateOutcome) :
    putDataHandler oracle =
      match oracle 0, oracle 1, oracle 2 with
      | .success p, _, _ =>
        { resp := some { status := 200, body := .record p }, attempts := 1, delays := [] }
      | .otherError _, _, _ =>
        { resp := some { status := 500, body := .err "Failed to update record" },
          attempts := 1, delays := [] }
      | .writeConflict, .success p, _ =>
        { resp := some { status := 200, body := .record p }, attempts := 2, delays := [100] }
      | .writeConflict, .otherError _, _ =>
        { resp := some { status := 500, body := .err "Failed to update record" },
          attempts := 2, delays := [100] }
      | .writeConflict, .writeConflict, .success p =>
        { resp := some { status := 200, body := .record p }, attempts := 3,
          delays := [100, 100] }
      | .writeConflict, .writeConflict, .otherError _ =>
        { resp := some { status := 500, body := .err "Failed to update record" },
          attempts := 3, delays := [100, 100] }
      | .writeConflict, .writeConflict, .writeConflict =>
        { resp := some { status := 409, body := .err "Write conflict, please retry" },
          attempts := 3, delays := [100, 100] } := by
  cases h0 : oracle 0 <;> cases h1 : oracle 1 <;> cases h2 : oracle 2 <;>
    simp [putDataHandler, putGo, h0, h1, h2]

/-- Every 100ms sleep the PUT loop takes is preceded by a P2034 write
conflict from the store on the corresponding attempt. -/
theorem putGo_delays_conflict (oracle : Nat → UpdateOutcome) :
    ∀ remaining attempt j, j < (putGo oracle attempt remaining).delays.length →
      oracle (attempt + j) = .writeConflict := by
  intro remaining
  induction remaining with
  | zero => intro attempt j hj; simp [putGo] at hj
  | succ r ih =>
    intro attempt j hj
    cases ho : oracle attempt with
    | success p => simp only [putGo, ho] at hj; simp at hj
    | otherError m => simp only [putGo, ho] at hj; simp at hj
    | writeConflict =>
      simp only [putGo, ho] at hj
      by_cases ha : attempt < 2
      · rw [if_pos ha] at hj
        simp only [List.length_cons] at hj
        cases j with
        | zero => simpa using ho
        | succ j' =>
          have hrec := ih (attempt + 1) j' (by omega)
          have harith : attempt + (j' + 1) = attempt + 1 + j' := by omega
          rw [harith]
          exact hrec
      · rw [if_neg ha] at hj; simp at hj

/-- When every attempt reports a write conflict, the PUT route answers 409
after 3 attempts and 2 sleeps. -/
theorem putData_all_conflict (oracle : Nat → UpdateOutcome)
    (h0 : oracle 0 = .writeConflict) (h1 : oracle 1 = .writeConflict)
    (h2 : oracle 2 = .writeConflict) :
    putDataHandler oracle =
      { resp := some { status := 409, body := .err "Write conflict, please retry" },
        attempts := 3, delays := [100, 100] } := by
  simp [putDataHandler, putGo, h0, h1, h2]

/-- C4: the PUT update loop issues at most 3 store calls, always sends
exactly one response with status 200, 409 or 500, sleeps a fixed 100ms
before each retry, retries only while the store keeps reporting the P2034
write conflict, and answers 409 with attempts exhausted when every attempt
conflicts. -/
theorem putData_retry_policy (oracle : Nat → UpdateOutcome) :
    (putDataHandler oracle).attempts ≤ 3 ∧
    (putDataHandler oracle).resp.isSome = true ∧
    ((putDataHandler oracle).resp.map PutResp.status = some 200 ∨
     (putDataHandler oracle).resp.map PutResp.status = some 409 ∨
     (putDataHandler oracle).resp.map PutResp.status = some 500) ∧
    (∀ d ∈ (putDataHandler oracle).delays, d = 100) ∧
    (putDataHandler oracle).delays.length ≤ 2 ∧
    (∀ j, j < (putDataHandler oracle).delays.length →
      oracle j = .writeConflict) ∧
    ((∀ j, j < 3 → oracle j = .writeConflict) →
      putDataHandler oracle =
        { resp := some { status := 409, body := .err "Write conflict, please retry" },
          attempts := 3, delays := [100, 100] }) := by
  have hbulk : (putDataHandler oracle).attempts ≤ 3 ∧
      (putDataHandler oracle).resp.isSome = true ∧
      ((putDataHandler oracle).resp.map PutResp.status = some 200 ∨
       (putDataHandler oracle).resp.map PutResp.status = some 409 ∨
       (putDataHandler oracle).resp.map PutResp.status = some 500) ∧
      (∀ d ∈ (putDataHandler oracle).delays, d = 100) ∧
      (putDataHandler oracle).delays.length ≤ 2 := by
    cases h0 : oracle 0 <;> cases h1 : oracle 1 <;> cases h2 : oracle 2 <;>
      rw [putDataHandler_cases oracle] <;> simp [h0, h1, h2]
  refine ⟨hbulk.1, hbulk.2.1, hbulk.2.2.1, hbulk.2.2.2.1, hbulk.2.2.2.2, ?_, ?_⟩
  · intro j hj
    have := putGo_delays_conflict oracle 3 0 j hj
    simpa using this
  · intro hall
    exact putData_all_conflict oracle (hall 0 (by omega)) (hall 1 (by omega))
      (hall 2 (by omega))

theorem putData_retry_policy_witness :
    putDataHandler (fun _ => UpdateOutcome.writeConflict) =
      { resp := some { status := 409, body := .err "Write conflict, please retry" },
        attempts := 3, delays := [100, 100] } :=
  (putData_retry_policy (fun _ => UpdateOutcome.writeConflict)).2.2.2.2.2.2
    (fun _ _ => rfl)

/-- C3: a POST upload whose declared mime type is outside the allow-list is
answered 400 immediately, with no transcode and no store put, and the
decision reads nothing but the declared type: the outcome is the same for
every body, filename, transcoder and store client. -/
theorem upload_rejects_disallowed_type (mt : String)
    (h : ALLOWED_TYPES.contains mt = false)
    (transcodeFn : List Nat → List Nat)
    (putFn : String → List Nat → String → BlobResult)
    (now : Nat) (fn : String) (chunks : List (List Nat)) :
    uploadHandler transcodeFn putFn now ⟨mt, fn, chunks⟩ =
      { resp := { status := 400,
                  body := .badRequest "Invalid file type. Only images allowed." },
        events := [] } := by
  unfold uploadHandler
  rw [h, if_pos rfl]

theorem upload_rejects_disallowed_type_witness :
    ALLOWED_TYPES.contains "text/plain" = false ∧
    uploadHandler (fun b => b) echoPut 7 ⟨"text/plain", "a.txt", [[1, 2]]⟩ =
      { resp := { status := 400,
                  body := .badRequest "Invalid file type. Only images allowed." },
        events := [] } :=
  ⟨by decide,
   upload_rejects_disallowed_type "text/plain" (by decide)
     (fun b => b) echoPut 7 "a.txt" [[1, 2]]⟩

/-- C8: the data passed to the store by POST keeps no id field, the data
passed by PUT keeps neither id nor the underscore alias, and every other
field passes through with its value unchanged; hence the stored record's
identifier is never taken from a request body. -/
theorem crud_strips_identifier (body : List (String × String)) (k : String) :
    (createData body).lookup "id" = none ∧
    (requestBody body).lookup "id" = none ∧
    (requestBody body).lookup "_id" = none ∧
    (k ≠ "id" → (createData body).lookup k = body.lookup k) ∧
    (k ≠ "id" → k ≠ "_id" → (requestBody body).lookup k = body.lookup k) := by
  refine ⟨?_, ?_, ?_, ?_, ?_⟩
  · rw [createData_lookup]; simp
  · rw [requestBody_lookup]; simp
  · rw [requestBody_lookup]; simp
  · intro hk; rw [createData_lookup, if_pos (by simpa using hk)]
  · intro hk hk'
    rw [requestBody_lookup, if_pos (by simp [hk, hk'])]

theorem crud_strips_identifier_witness :
    (createData [("id", "evil"), ("_id", "evil2"), ("title", "t")]).lookup "id"
      = none ∧
    (requestBody [("id", "evil"), ("_id", "evil2"), ("title", "t")]).lookup "_id"
      = none ∧
    (createData [("id", "evil"), ("_id", "evil2"), ("title", "t")]).lookup "title"
      = [("id", "evil"), ("_id", "evil2"), ("title", "t")].lookup "title" := by
  have h := crud_strips_identifier [("id", "evil"), ("_id", "evil2"), ("title", "t")] "title"
  exact ⟨h.1, h.2.2.1, h.2.2.2.1 (by decide)⟩

/-- C9: the upload router registers only the param form of the image-delete
route; the path of the body-carrying request the frontend sends
(DELETE api/image) matches no route, while a nonempty url param does match,
so a blob URL supplied only in the request body never reaches the handler. -/
theorem imageDelete_body_route_unmatched :
    apiDeleteDispatch ["image"] = false ∧
    apiDeleteDispatch ["image", "https%3A%2F%2Fblob.example%2Fx.jpg"] = true ∧
    (deleteImageHandler (fun s => s) "u1").2 = [DbEvent.blobDelete "u1"] := by
  refine ⟨by decide, by decide, rfl⟩

/-- C2: any upload whose stream totals more than the limit is answered 400
with no transcode and no store put; when the declared type is allowed, the
stream is destroyed at the first chunk that pushes the running size over the
limit (the prefix before it still fits), and the outcome is fixed by that
prefix alone — the handler never waits for the rest of the body. -/
theorem upload_rejects_oversize_stream (transcodeFn : List Nat → List Nat)
    (putFn : String → List Nat → String → BlobResult) (now : Nat)
    (req : UploadReq) (hsize : MAX_FILE_SIZE < totalSize req.chunks) :
    (uploadHandler transcodeFn putFn now req).resp.status = 400 ∧
    (uploadHandler transcodeFn putFn now req).events = [] ∧
    (ALLOWED_TYPES.contains req.mimeType = true →
      ∃ k, firstExceed req.chunks = some k ∧
        (uploadHandler transcodeFn putFn now req).resp.body =
          .badRequest "File too large. Maximum size is 10MB." ∧
        MAX_FILE_SIZE < totalSize (req.chunks.take k) ∧
        totalSize (req.chunks.take (k - 1)) ≤ MAX_FILE_SIZE ∧
        (∀ rest, collectGo (req.chunks.take k ++ rest) 0 [] = .tooLarge k)) := by
  by_cases hallow : ALLOWED_TYPES.contains req.mimeType = true
  · have hkex : ∃ k, firstExceedGo req.chunks 0 = some k := by
      cases he : firstExceedGo req.chunks 0 with
      | some k => exact ⟨k, rfl⟩
      | none =>
        have := firstExceedGo_none req.chunks 0 (by omega) he
        omega
    obtain ⟨k, hk⟩ := hkex
    have habort : ∀ rest acc, collectGo (req.chunks.take k ++ rest) 0 acc = .tooLarge k :=
      collectGo_abort req.chunks 0 k hk
    have hcg : collectGo req.chunks 0 [] = .tooLarge k := by
      have h := habort (req.chunks.drop k) []
      rwa [List.take_append_drop] at h
    have hbnd := firstExceedGo_bounds req.chunks 0 k (by omega) hk
    have hEq : uploadHandler transcodeFn putFn now req =
        { resp := { status := 400,
                    body := .badRequest "File too large. Maximum size is 10MB." },
          events := [] } := by
      unfold uploadHandler
      rw [hallow]
      rw [if_neg (by simp)]
      rw [hcg]
    refine ⟨by rw [hEq], by rw [hEq],
      fun _ => ⟨k, hk, by rw [hEq], ?_, ?_, fun rest => habort rest []⟩⟩
    · simpa using hbnd.2.2.1
    · simpa using hbnd.2.2.2
  · have hfalse : ALLOWED_TYPES.contains req.mimeType = false := by simpa using hallow
    have hEq : uploadHandler transcodeFn putFn now req =
        { resp := { status := 400,
                    body := .badRequest "Invalid file type. Only images allowed." },
          events := [] } := by
      unfold uploadHandler; rw [hfalse, if_pos rfl]
    exact ⟨by rw [hEq], by rw [hEq],
      fun hmem => by rw [hmem] at hfalse; simp at hfalse⟩

theorem upload_rejects_oversize_stream_witness :
    MAX_FILE_SIZE < totalSize bigReq.chunks ∧
    (uploadHandler (fun b => b) echoPut 3 bigReq).resp.status = 400 ∧
    (uploadHandler (fun b => b) echoPut 3 bigReq).events = [] := by
  have hsize : MAX_FILE_SIZE < totalSize bigReq.chunks := by
    simp [bigReq, totalSize]
  have h := upload_rejects_oversize_stream (fun b => b) echoPut 3 bigReq hsize
  exact ⟨hsize, h.1, h.2.1⟩

/-- C5: an upload declared image/svg+xml skips the transcoder entirely: the
only external call is the store put, it receives exactly the input bytes
under the svg content type, and the response carries the svg content type
and the input length (with a store client that echoes the stored type). -/
theorem upload_svg_passthrough (transcodeFn : List Nat → List Nat)
    (putFn : String → List Nat → String → BlobResult) (now : Nat) (fn : String)
    (chunks : List (List Nat))
    (hsize : totalSize chunks ≤ MAX_FILE_SIZE)
    (hecho : ∀ k b c, (putFn k b c).contentType = c) :
    (uploadHandler transcodeFn putFn now ⟨"image/svg+xml", fn, chunks⟩).events =
      [UpEvent.blobPut ⟨uploadKey now fn, chunks.flatten, "image/svg+xml"⟩] ∧
    (uploadHandler transcodeFn putFn now ⟨"image/svg+xml", fn, chunks⟩).resp.status
      = 200 ∧
    (uploadHandler transcodeFn putFn now ⟨"image/svg+xml", fn, chunks⟩).resp.body =
      .ok { url := (putFn (uploadKey now fn) chunks.flatten "image/svg+xml").url,
            pathname :=
              (putFn (uploadKey now fn) chunks.flatten "image/svg+xml").pathname,
            contentType := "image/svg+xml",
            size := chunks.flatten.length } := by
  have hc : collectGo chunks 0 [] = .complete chunks.flatten := by
    have h := collectGo_complete chunks 0 [] (by omega)
    simpa using h
  have hsvg : jsIncludes "image/svg+xml" "svg" = true := by decide
  have hallow : ALLOWED_TYPES.contains "image/svg+xml" = true := by decide
  unfold uploadHandler
  rw [hallow, if_neg (by simp), hc]
  simp [processBuffer, processContentType, hsvg, hecho]

theorem upload_svg_passthrough_witness :
    totalSize [[10, 20], [30]] ≤ MAX_FILE_SIZE ∧
    (uploadHandler (fun b => b ++ [9]) echoPut 5
        ⟨"image/svg+xml", "pic.svg", [[10, 20], [30]]⟩).events =
      [UpEvent.blobPut ⟨uploadKey 5 "pic.svg",
        ([[10, 20], [30]] : List (List Nat)).flatten, "image/svg+xml"⟩] ∧
    (uploadHandler (fun b => b ++ [9]) echoPut 5
        ⟨"image/svg+xml", "pic.svg", [[10, 20], [30]]⟩).resp.status = 200 := by
  have h := upload_svg_passthrough (fun b => b ++ [9]) echoPut 5 "pic.svg"
    [[10, 20], [30]] (by decide) (fun _ _ _ => rfl)
  exact ⟨by decide, h.1, h.2.1⟩

/-- C6: the resize semantics used for raster uploads keeps dimensions of
anything already inside the 800 by 800 box (no upscaling), maps anything
larger to an output whose longer edge is exactly the configured maximum,
preserves the aspect ratio within rounding (cross products differ by at
most half the binding input dimension), and the pipeline re-encodes to
jpeg at quality 85. -/
theorem transcoder_bounding_box (w h : Nat) (hw : 0 < w) (hh : 0 < h) :
    (w ≤ MAX_WIDTH → h ≤ MAX_HEIGHT →
      sharpResizeDims uploadSharpConfig w h = (w, h)) ∧
    (MAX_WIDTH < w ∨ MAX_HEIGHT < h →
      max (sharpResizeDims uploadSharpConfig w h).1
          (sharpResizeDims uploadSharpConfig w h).2 = MAX_WIDTH ∧
      2 * (sharpResizeDims uploadSharpConfig w h).1 * h ≤
        2 * (sharpResizeDims uploadSharpConfig w h).2 * w + max w h ∧
      2 * (sharpResizeDims uploadSharpConfig w h).2 * w ≤
        2 * (sharpResizeDims uploadSharpConfig w h).1 * h + max w h) ∧
    uploadSharpConfig.format = "jpeg" ∧ uploadSharpConfig.quality = 85 ∧
    uploadSharpConfig.fit = "inside" ∧
    uploadSharpConfig.withoutEnlargement = true := by
  refine ⟨?_, ?_, rfl, rfl, rfl, rfl⟩
  · intro h1 h2
    unfold sharpResizeDims
    rw [if_pos ⟨rfl, h1, h2⟩]
  · intro hbig
    have hnotfit : ¬(uploadSharpConfig.withoutEnlargement = true ∧
        w ≤ uploadSharpConfig.width ∧ h ≤ uploadSharpConfig.height) := by
      rintro ⟨-, hw8, hh8⟩
      have hw8' : w ≤ 800 := hw8
      have hh8' : h ≤ 800 := hh8
      rcases hbig with hb | hb
      · exact absurd hb (by simp [MAX_WIDTH]; omega)
      · exact absurd hb (by simp [MAX_HEIGHT]; omega)
    unfold sharpResizeDims
    rw [if_neg hnotfit]
    by_cases hcase : uploadSharpConfig.width * h ≤ uploadSharpConfig.height * w
    · rw [if_pos hcase]
      have hhw : h ≤ w := by
        have hc800 : (800 : Nat) * h ≤ 800 * w := hcase
        omega
      have hw800 : 800 < w := by
        by_cases hc : w ≤ 800
        · rcases hbig with hb | hb
          · exact absurd hb (by simp [MAX_WIDTH]; omega)
          · have : h ≤ 800 := le_trans hhw hc
            exact absurd hb (by simp [MAX_HEIGHT]; omega)
        · omega
      have hw0 : 0 < w := by omega
      have hq : natRound (h * 800) w ≤ 800 := by
        apply natRound_le_of_le _ _ _ hw0
        nlinarith
      have hb := natRound_mul_bounds (h * 800) w hw0
      have hmax : max w h = w := by omega
      refine ⟨?_, ?_, ?_⟩
      · show max 800 (natRound (h * 800) w) = MAX_WIDTH
        have hMW : MAX_WIDTH = 800 := rfl
        omega
      · show 2 * 800 * h ≤ 2 * natRound (h * 800) w * w + max w h
        rw [hmax]
        nlinarith [hb.2]
      · show 2 * natRound (h * 800) w * w ≤ 2 * 800 * h + max w h
        rw [hmax]
        nlinarith [hb.1]
    · rw [if_neg hcase]
      have hwh : w < h := by
        have hc800 : ¬((800 : Nat) * h ≤ 800 * w) := hcase
        omega
      have hh800 : 800 < h := by
        by_cases hc : h ≤ 800
        · rcases hbig with hb | hb
          · have : w ≤ 800 := by omega
            exact absurd hb (by simp [MAX_WIDTH]; omega)
          · exact absurd hb (by simp [MAX_HEIGHT]; omega)
        · omega
      have hh0 : 0 < h := by omega
      have hq : natRound (w * 800) h ≤ 800 := by
        apply natRound_le_of_le _ _ _ hh0
        nlinarith
      have hb := natRound_mul_bounds (w * 800) h hh0
      have hmax : max w h = h := by omega
      refine ⟨?_, ?_, ?_⟩
      · show max (natRound (w * 800) h) 800 = MAX_WIDTH
        have hMW : MAX_WIDTH = 800 := rfl
        omega
      · show 2 * natRound (w * 800) h * h ≤ 2 * 800 * w + max w h
        rw [hmax]
        nlinarith [hb.1]
      · show 2 * 800 * w ≤ 2 * natRound (w * 800) h * h + max w h
        rw [hmax]
        nlinarith [hb.2]

theorem transcoder_bounding_box_witness :
    (0 : Nat) < 1600 ∧ (0 : Nat) < 1200 ∧
    max (sharpResizeDims uploadSharpConfig 1600 1200).1
        (sharpResizeDims uploadSharpConfig 1600 1200).2 = MAX_WIDTH := by
  have h := transcoder_bounding_box 1600 1200 (by norm_num) (by norm_num)
  exact ⟨by norm_num, by norm_num, (h.2.1 (Or.inl (by decide))).1⟩

/-- C7: a successful upload (allowed type, stream within the limit, the
abstract transcoder and store calls returning) is answered with status 200 —
in the 2xx class of 201 — and a body of exactly url, pathname, contentType
copied from the store put result plus size equal to the processed buffer
length; the put call is the last external call made. -/
theorem upload_success_payload (transcodeFn : List Nat → List Nat)
    (putFn : String → List Nat → String → BlobResult) (now : Nat) (fn : String)
    (chunks : List (List Nat)) (mt : String)
    (hallow : ALLOWED_TYPES.contains mt = true)
    (hsize : totalSize chunks ≤ MAX_FILE_SIZE) :
    (uploadHandler transcodeFn putFn now ⟨mt, fn, chunks⟩).resp.status = 200 ∧
    (uploadHandler transcodeFn putFn now ⟨mt, fn, chunks⟩).resp.status / 100 = 2 ∧
    (uploadHandler transcodeFn putFn now ⟨mt, fn, chunks⟩).resp.body =
      .ok { url := (putFn (uploadKey now fn)
                      (processBuffer transcodeFn mt chunks.flatten)
                      (processContentType mt)).url,
            pathname := (putFn (uploadKey now fn)
                      (processBuffer transcodeFn mt chunks.flatten)
                      (processContentType mt)).pathname,
            contentType := (putFn (uploadKey now fn)
                      (processBuffer transcodeFn mt chunks.flatten)
                      (processContentType mt)).contentType,
            size := (processBuffer transcodeFn mt chunks.flatten).length } ∧
    (uploadHandler transcodeFn putFn now ⟨mt, fn, chunks⟩).events.getLast? =
      some (.blobPut ⟨uploadKey now fn,
                      processBuffer transcodeFn mt chunks.flatten,
                      processContentType mt⟩) := by
  have hc : collectGo chunks 0 [] = .complete chunks.flatten := by
    have h := collectGo_complete chunks 0 [] (by omega)
    simpa using h
  have hEq : uploadHandler transcodeFn putFn now ⟨mt, fn, chunks⟩ =
      { resp := { status := 200,
                  body := .ok
                    { url := (putFn (uploadKey now fn)
                        (processBuffer transcodeFn mt chunks.flatten)
                        (processContentType mt)).url,
                      pathname := (putFn (uploadKey now fn)
                        (processBuffer transcodeFn mt chunks.flatten)
                        (processContentType mt)).pathname,
                      contentType := (putFn (uploadKey now fn)
                        (processBuffer transcodeFn mt chunks.flatten)
                        (processContentType mt)).contentType,
                      size := (processBuffer transcodeFn mt chunks.flatten).length } },
        events := (if jsIncludes mt "svg" then []
                   else [UpEvent.transcode chunks.flatten uploadSharpConfig]) ++
          [UpEvent.blobPut ⟨uploadKey now fn,
                            processBuffer transcodeFn mt chunks.flatten,
                            processContentType mt⟩] } := by
    unfold uploadHandler
    rw [hallow, if_neg (by simp), hc]
  refine ⟨by rw [hEq], by rw [hEq]; norm_num, by rw [hEq], ?_⟩
  rw [hEq]
  by_cases hsvg : jsIncludes mt "svg" = true <;> simp [hsvg]

theorem upload_success_payload_witness :
    ALLOWED_TYPES.contains "image/png" = true ∧
    totalSize [[1, 2]] ≤ MAX_FILE_SIZE ∧
    (uploadHandler (fun b => b ++ [9]) echoPut 7
        ⟨"image/png", "f.png", [[1, 2]]⟩).resp.status = 200 ∧
    (uploadHandler (fun b => b ++ [9]) echoPut 7
        ⟨"image/png", "f.png", [[1, 2]]⟩).resp.body =
      .ok { url := "https://blob.example/cat-images/7-f.png",
            pathname := "cat-images/7-f.png",
            contentType := "image/jpeg", size := 3 } := by
  have h := upload_success_payload (fun b => b ++ [9]) echoPut 7 "f.png"
    [[1, 2]] "image/png" (by decide) (by decide)
  refine ⟨by decide, by decide, h.1, ?_⟩
  rw [h.2.2.1]
  rfl

end PhotoApp
